import Mathlib

/-!
Verification development for the MM-Crypto-binance market-making simulator.

All Python float arithmetic is embedded over the exact rationals `ℚ`;
properties stated in the specification "within floating tolerance" are
proved exactly.  Code paths that can raise a Python exception
(ZeroDivisionError) are embedded as `Option`-valued functions returning
`none` on the faulting input.  Wall-clock reads (`time.time()`) are made
explicit `now` parameters.  CSV parsing is out of scope: batch inputs are
modelled post-parse, with numeric fields already rational.
-/

namespace MMBinance

/-- One price level of an order book side (models.py, `OrderBookLevel`). -/
structure OrderBookLevel where
  price : ℚ
  size : ℚ
deriving DecidableEq, Repr

/-- A market trade event (models.py, `Trade`); timestamp as rational seconds. -/
structure Trade where
  timestamp : ℚ
  price : ℚ
  size : ℚ
  side : String
deriving DecidableEq, Repr

/-! ## SpreadAnalyzer (spread.py) -/

/-- The level-walking loop shared by both halves of
`SpreadAnalyzer.calculate_spread_for_size` (spread.py lines 40-45 and
58-63): walk levels from the front, take `min remaining level.size` at each
level, accumulate cost, stop when `remaining ≤ 0`.  Returns the pair
(remaining unfilled size, accumulated cost). -/
def walkLoop : List OrderBookLevel → ℚ → ℚ → ℚ × ℚ
  | [], remaining, cost => (remaining, cost)
  | l :: ls, remaining, cost =>
    if remaining ≤ 0 then (remaining, cost)
    else walkLoop ls (remaining - min remaining l.size) (cost + min remaining l.size * l.price)

/-- Total cost of filling `target` on one side: the walk, then (spread.py
lines 47-50 / 65-68) any unfilled remainder is priced at the last
available level. -/
def sideCost (levels : List OrderBookLevel) (target : ℚ) : ℚ :=
  if 0 < (walkLoop levels target 0).1 then
    match levels.getLast? with
    | some l => (walkLoop levels target 0).2 + (walkLoop levels target 0).1 * l.price
    | none => (walkLoop levels target 0).2
  else (walkLoop levels target 0).2

/-- Volume-weighted average price to fill `target` on one side
(spread.py line 52 / 70): cost divided by target, `0` when `target ≤ 0`. -/
def avgSidePrice (levels : List OrderBookLevel) (target : ℚ) : ℚ :=
  if 0 < target then sideCost levels target / target else 0

/-- `SpreadAnalyzer.calculate_spread_for_size` (spread.py lines 31-72):
`0` on an empty side, otherwise average ask fill price minus average bid
fill price. -/
def calculate_spread_for_size (bids asks : List OrderBookLevel) (target_size : ℚ) : ℚ :=
  if bids = [] ∨ asks = [] then 0
  else avgSidePrice asks target_size - avgSidePrice bids target_size

/-- `SpreadAnalyzer._ratio` (spread.py lines 75-78): order-book imbalance,
guarded to `0` when the combined volume is not positive. -/
def ratio (bid_vol ask_vol : ℚ) : ℚ :=
  if bid_vol + ask_vol ≤ 0 then 0 else (bid_vol - ask_vol) / (bid_vol + ask_vol)

/-- `SpreadAnalyzer.calc_imbalance_levels` (spread.py lines 80-86). -/
def calc_imbalance_levels (bids asks : List OrderBookLevel) (levels : Nat) : ℚ :=
  if bids = [] ∨ asks = [] then 0
  else ratio ((bids.take levels).map OrderBookLevel.size).sum
             ((asks.take levels).map OrderBookLevel.size).sum

/-- Rolling-window spread statistics record (models.py, `SpreadMetrics`). -/
structure SpreadMetrics where
  avg_spread : ℚ
  med_spread : ℚ
  min_spread : ℚ
  max_spread : ℚ
deriving DecidableEq, Repr

/-- Arithmetic mean of a window, as `statistics.mean`; only ever applied to
a nonempty window by `get_spread_metrics`. -/
def listMean (l : List ℚ) : ℚ := l.sum / (l.length : ℚ)

/-- Median of a window, as `statistics.median`: middle element of the
sorted window, or the mean of the two middle elements. -/
def listMedian (l : List ℚ) : ℚ :=
  let s := l.insertionSort (· ≤ ·)
  let n := l.length
  if n % 2 = 1 then (s.get? (n / 2)).getD 0
  else ((s.get? (n / 2 - 1)).getD 0 + (s.get? (n / 2)).getD 0) / 2

/-- `SpreadAnalyzer.get_spread_metrics` (spread.py lines 119-129) applied to
the current window contents: all-zero metrics on an empty window, else
mean/median/min/max. -/
def get_spread_metrics (spreads : List ℚ) : SpreadMetrics :=
  if spreads = [] then ⟨0, 0, 0, 0⟩
  else ⟨listMean spreads, listMedian spreads,
        (spreads.min?).getD 0, (spreads.max?).getD 0⟩

/-! ### Specification-side model of the depth walk (for claim C6)

`specWalk` renders the words of the spec, section 4.1: walk the levels
from the front accumulating volume-weighted cost, and price any remainder
beyond the cumulative depth at the worst (last) available level. -/

/-- Modelled from the spec: total cost of filling `s` against the listed
levels, the unfilled remainder priced at the last level.  On the last
level the whole of what is still wanted is charged at that price. -/
def specWalk : List OrderBookLevel → ℚ → ℚ
  | [], _ => 0
  | [l], s => max s 0 * l.price
  | l :: l2 :: ls, s =>
    min (max s 0) l.size * l.price + specWalk (l2 :: ls) (s - min (max s 0) l.size)

lemma walkLoop_acc (ls : List OrderBookLevel) (r c : ℚ) :
    walkLoop ls r c = ((walkLoop ls r 0).1, c + (walkLoop ls r 0).2) := by
  induction ls generalizing r c with
  | nil => simp [walkLoop]
  | cons l ls ih =>
    by_cases h : r ≤ 0
    · simp [walkLoop, h]
    · rw [walkLoop, if_neg h, walkLoop, if_neg h, ih, ih (r - min r l.size) (0 + min r l.size * l.price)]
      ring_nf

lemma specWalk_nonpos (ls : List OrderBookLevel) (hsz : ∀ l ∈ ls, 0 ≤ l.size) (t : ℚ)
    (ht : t ≤ 0) : specWalk ls t = 0 := by
  induction ls with
  | nil => simp [specWalk]
  | cons l ls ih =>
    match ls with
    | [] => simp [specWalk, max_eq_right ht]
    | l2 :: ls2 =>
      have h0 : 0 ≤ l.size := hsz l (by simp)
      rw [specWalk, max_eq_right ht, min_eq_left h0]
      simp only [zero_mul, zero_add, sub_zero]
      exact ih (fun x hx => hsz x (List.mem_cons_of_mem _ hx))

lemma sideCost_eq_specWalk (levels : List OrderBookLevel) (hne : levels ≠ [])
    (hsz : ∀ l ∈ levels, 0 ≤ l.size) : ∀ t, sideCost levels t = specWalk levels t := by
  induction levels with
  | nil => exact absurd rfl hne
  | cons l ls ih =>
    intro t
    cases ls with
    | nil =>
      by_cases ht : t ≤ 0
      · have hw : walkLoop [l] t 0 = (t, 0) := by rw [walkLoop, if_pos ht]
        rw [sideCost, hw]
        simp [not_lt.mpr ht, specWalk, max_eq_right ht]
      · push_neg at ht
        have hw : walkLoop [l] t 0 = (t - min t l.size, 0 + min t l.size * l.price) := by
          rw [walkLoop, if_neg (not_le.mpr ht), walkLoop]
        rw [sideCost, hw, specWalk, max_eq_left ht.le]
        by_cases hr : 0 < t - min t l.size
        · rw [if_pos hr]
          show 0 + min t l.size * l.price + (t - min t l.size) * l.price = t * l.price
          ring
        · rw [if_neg hr]
          have h1 : min t l.size ≤ t := min_le_left _ _
          have h2 : t ≤ min t l.size := by linarith [not_lt.mp hr]
          have : min t l.size = t := le_antisymm h1 h2
          rw [this]; ring
    | cons l2 ls2 =>
      by_cases ht : t ≤ 0
      · have hw : walkLoop (l :: l2 :: ls2) t 0 = (t, 0) := by rw [walkLoop, if_pos ht]
        rw [sideCost, hw, specWalk_nonpos _ hsz t ht]
        simp [not_lt.mpr ht]
      · push_neg at ht
        have hw : walkLoop (l :: l2 :: ls2) t 0 =
            ((walkLoop (l2 :: ls2) (t - min t l.size) 0).1,
              min t l.size * l.price + (walkLoop (l2 :: ls2) (t - min t l.size) 0).2) := by
          rw [walkLoop, if_neg (not_le.mpr ht),
              walkLoop_acc (l2 :: ls2) (t - min t l.size) (0 + min t l.size * l.price)]
          norm_num
        have hih : sideCost (l2 :: ls2) (t - min t l.size) =
            specWalk (l2 :: ls2) (t - min t l.size) :=
          ih (List.cons_ne_nil _ _) (fun x hx => hsz x (List.mem_cons_of_mem _ hx)) _
        rw [specWalk, max_eq_left ht.le, ← hih]
        rw [sideCost, sideCost, hw, List.getLast?_cons_cons]
        by_cases hr : 0 < (walkLoop (l2 :: ls2) (t - min t l.size) 0).1
        · rw [if_pos hr, if_pos hr]
          rcases hlast : (l2 :: ls2).getLast? with _ | x
          · exact absurd (List.getLast?_eq_none_iff.mp hlast) (List.cons_ne_nil _ _)
          · ring
        · rw [if_neg hr, if_neg hr]

/-- Claim C6: `spreadForSize` returns the difference of the volume-weighted
average ask and bid fill prices, each walking the levels from the front and
pricing any unfilled remainder at the last available level (`specWalk`
renders this policy from the words of the spec); a non-positive size or an
empty side yields exactly `0`. -/
theorem claim_C6_spread_for_size (bids asks : List OrderBookLevel) (target : ℚ)
    (hb : ∀ l ∈ bids, 0 ≤ l.size) (ha : ∀ l ∈ asks, 0 ≤ l.size) :
    ((target ≤ 0 ∨ bids = [] ∨ asks = []) → calculate_spread_for_size bids asks target = 0) ∧
    (0 < target → bids ≠ [] → asks ≠ [] →
      calculate_spread_for_size bids asks target =
        specWalk asks target / target - specWalk bids target / target) := by
  constructor
  · rintro (ht | h | h)
    · by_cases hbe : bids = [] ∨ asks = []
      · simp [calculate_spread_for_size, hbe]
      · simp [calculate_spread_for_size, hbe, avgSidePrice, not_lt.mpr ht]
    · simp [calculate_spread_for_size, h]
    · simp [calculate_spread_for_size, h]
  · intro ht hb2 ha2
    have hne : ¬(bids = [] ∨ asks = []) := by simp [hb2, ha2]
    rw [calculate_spread_for_size, if_neg hne, avgSidePrice, if_pos ht, avgSidePrice, if_pos ht,
        sideCost_eq_specWalk bids hb2 hb target, sideCost_eq_specWalk asks ha2 ha target]

/-- Witness for claim C6 at the spec scenario: bids 100@0.5 then 99@10,
ask 101@1, size 1; the average bid fill price is 99.5. -/
theorem claim_C6_witness :
    calculate_spread_for_size [⟨100, 1/2⟩, ⟨99, 10⟩] [⟨101, 1⟩] 1 =
      specWalk [⟨101, 1⟩] 1 / 1 - specWalk [⟨100, 1/2⟩, ⟨99, 10⟩] 1 / 1 ∧
    specWalk [⟨100, 1/2⟩, ⟨99, 10⟩] 1 / 1 = 199/2 :=
  ⟨(claim_C6_spread_for_size [⟨100, 1/2⟩, ⟨99, 10⟩] [⟨101, 1⟩] 1 (by norm_num) (by norm_num)).2
      (by norm_num) (by simp) (by simp), by norm_num [specWalk]⟩

/-! ## SimpleMarketMaker (strategy.py) -/

/-- A quote to post (strategy.py, `Quote`). -/
structure Quote where
  side : String
  price : ℚ
  size : ℚ
  timestamp : ℚ
deriving DecidableEq, Repr

/-- Strategy configuration (strategy.py, `MarketMakingConfig`), with the
source defaults (floats written as exact rationals). -/
structure MarketMakingConfig where
  base_spread_bps : ℚ := 10
  min_spread_bps : ℚ := 5
  max_spread_bps : ℚ := 50
  base_order_size : ℚ := 5 / 100
  max_order_size : ℚ := 1
  max_notional_exposure : ℚ := 1000000
  max_loss_allowed : ℚ := 100000
  quote_refresh_interval : ℚ := 1 / 10
  tick_size : ℚ := 1 / 100
  asym_deadband_pct : ℚ := 20 / 100
  asym_bps_step : ℚ := 2
deriving DecidableEq, Repr

/-- The default configuration, as built by `MarketMakingConfig()`. -/
def defaultConfig : MarketMakingConfig := {}

/-- `SimpleMarketMaker.calculate_fair_price` (strategy.py lines 65-86):
mid of best bid and best ask, unavailable on an empty or crossed book. -/
def calculate_fair_price (bids asks : List OrderBookLevel) : Option ℚ :=
  match bids, asks with
  | b :: _, a :: _ => if a.price ≤ b.price then none else some ((b.price + a.price) / 2)
  | _, _ => none

/-- `SimpleMarketMaker._check_risk_limits` (strategy.py lines 170-183):
`true` means suspend quoting. -/
def check_risk_limits (cfg : MarketMakingConfig)
    (current_position total_pnl current_price : ℚ) : Bool :=
  if cfg.max_notional_exposure < |current_position| * current_price then true
  else if total_pnl < -cfg.max_loss_allowed then true
  else false

/-- `SimpleMarketMaker.calculate_order_size` (strategy.py lines 90-97):
fixed size per side, `max(0.01, min(base, max_order_size))`. -/
def calculate_order_size (cfg : MarketMakingConfig) (current_position : ℚ)
    (side : String) : ℚ :=
  max (1 / 100) (min cfg.base_order_size cfg.max_order_size)

/-- `SimpleMarketMaker.generate_quotes` (strategy.py lines 99-167).
Returns `none` for the Python `ZeroDivisionError` raised when the exposure
ratio divides by `max_notional_exposure = 0`; otherwise `some (bid?, ask?)`
as in the source, where `(none, none)` is the no-quote result.  Note the
source computes `expo` from `abs(current_position)` (line 129), so `expo`
is never negative. -/
def generate_quotes (cfg : MarketMakingConfig) (bids asks : List OrderBookLevel)
    (current_position total_pnl unrealized_pnl now : ℚ) :
    Option (Option Quote × Option Quote) :=
  match calculate_fair_price bids asks with
  | none => some (none, none)
  | some fair_price =>
    let best_bid := ((bids.head?).map OrderBookLevel.price).getD 0
    let best_ask := ((asks.head?).map OrderBookLevel.price).getD 0
    if best_ask ≤ best_bid then some (none, none)
    else if check_risk_limits cfg current_position total_pnl fair_price then some (none, none)
    else if cfg.max_notional_exposure = 0 then none
    else
      let expo := |current_position| * fair_price / cfg.max_notional_exposure
      let off_bps : ℚ :=
        if |expo| ≤ cfg.asym_deadband_pct then 0
        else if |expo| ≤ 40 / 100 then 1 * cfg.asym_bps_step
        else if |expo| ≤ 60 / 100 then 2 * cfg.asym_bps_step
        else 3 * cfg.asym_bps_step
      let prices : ℚ × ℚ :=
        if 0 < off_bps then
          if 0 < expo then
            (best_bid, max (best_bid + cfg.tick_size) (best_ask - fair_price * off_bps / 10000))
          else if expo < 0 then
            (min (best_ask - cfg.tick_size) (best_bid + fair_price * off_bps / 10000), best_ask)
          else (best_bid, best_ask)
        else (best_bid, best_ask)
      let bid_size := calculate_order_size cfg current_position ("bid")
      let ask_size := calculate_order_size cfg current_position ("ask")
      some
        (if 1 / 100 < bid_size then
           some { side := "bid", price := prices.1, size := bid_size, timestamp := now }
         else none,
         if 1 / 100 < ask_size then
           some { side := "ask", price := prices.2, size := ask_size, timestamp := now }
         else none)

/-- Mutable strategy state (strategy.py `SimpleMarketMaker.__init__`). -/
structure StrategyState where
  is_active : Bool := false
  last_quote_time : ℚ := 0
  current_bid : Option Quote := none
  current_ask : Option Quote := none
  quotes_posted : Nat := 0
  quotes_updated : Nat := 0
deriving DecidableEq, Repr

/-- `SimpleMarketMaker.should_update_quotes` (strategy.py lines 185-199),
with the `time.time()` read made an explicit `now` argument. -/
def should_update_quotes (cfg : MarketMakingConfig) (s : StrategyState) (now : ℚ) : Bool :=
  if cfg.quote_refresh_interval < now - s.last_quote_time then true else false

/-- `SimpleMarketMaker._quote_changed` (strategy.py lines 235-246). -/
def quote_changed (old_quote new_quote : Option Quote) : Bool :=
  match old_quote, new_quote with
  | none, none => false
  | none, some _ => true
  | some _, none => true
  | some o, some n =>
    (if 1 / 100 < |o.price - n.price| then true else false) ||
    (if 1 / 100 < |o.size - n.size| then true else false)

/-- `SimpleMarketMaker.update_quotes` (strategy.py lines 201-231): no-op
unless the refresh interval has elapsed; regenerates quotes, and if either
side changed significantly replaces both and stamps `last_quote_time`.
`none` models the exception propagated from `generate_quotes`. -/
def update_quotes (cfg : MarketMakingConfig) (s : StrategyState) (now : ℚ)
    (bids asks : List OrderBookLevel) (current_position total_pnl unrealized_pnl : ℚ) :
    Option ((Option Quote × Option Quote) × StrategyState) :=
  if ¬ should_update_quotes cfg s now then some ((none, none), s)
  else
    match generate_quotes cfg bids asks current_position total_pnl unrealized_pnl now with
    | none => none
    | some (new_bid, new_ask) =>
      if quote_changed s.current_bid new_bid || quote_changed s.current_ask new_ask then
        some ((new_bid, new_ask),
          { s with current_bid := new_bid, current_ask := new_ask,
                   last_quote_time := now, quotes_updated := s.quotes_updated + 1 })
      else some ((none, none), s)

/-! ## PortfolioManager (portfolio.py) -/

/-- An executed order (portfolio.py, `Fill`). -/
structure Fill where
  timestamp : ℚ
  side : String
  price : ℚ
  size : ℚ
  trade_id : String
deriving DecidableEq, Repr

/-- Portfolio state (portfolio.py, `PortfolioState`), with the dataclass
defaults. -/
structure PortfolioState where
  q : ℚ := 0
  cash : ℚ := 0
  nav : ℚ := 0
  pnl : ℚ := 0
  btc_balance : ℚ := 0
  usd_balance : ℚ := 1000000
  total_btc_bought : ℚ := 0
  total_btc_sold : ℚ := 0
  total_usd_spent : ℚ := 0
  total_usd_received : ℚ := 0
  realized_pnl : ℚ := 0
  unrealized_pnl : ℚ := 0
  avg_entry_price : ℚ := 0
  total_trades : Nat := 0
deriving DecidableEq, Repr

/-- The mutable fields of `PortfolioManager` (portfolio.py lines 53-63). -/
structure PortfolioManager where
  state : PortfolioState
  max_inventory : ℚ
  min_inventory : ℚ
  fills_history : List Fill
  recent_fills : List Fill
  pnl_history : List ℚ
deriving DecidableEq, Repr

/-- `PortfolioManager.__init__` (portfolio.py lines 53-65). -/
def initPortfolio (initial_usd max_inventory : ℚ) : PortfolioManager :=
  { state := { usd_balance := initial_usd },
    max_inventory := max_inventory, min_inventory := -max_inventory,
    fills_history := [], recent_fills := [], pnl_history := [] }

/-- Bounded append as done by a `deque(maxlen=cap)`: the oldest entries are
evicted from the front once the capacity is exceeded. -/
def appendBounded (cap : Nat) (l : List Fill) (x : Fill) : List Fill :=
  if cap < (l ++ [x]).length then (l ++ [x]).drop ((l ++ [x]).length - cap) else l ++ [x]

/-- `PortfolioManager._update_avg_entry_price_on_fill` (portfolio.py lines
168-220): blended average for the current directional leg, reset on a zero
cross, untouched on a same-sign reduction. -/
def update_avg_entry_price_on_fill (st : PortfolioState) (side : String)
    (price executed q_before q_after : ℚ) : PortfolioState :=
  if executed ≤ 0 then st
  else if side = "buy" then
    if 0 ≤ q_before then
      { st with avg_entry_price :=
          if 0 < q_before + executed then
            (st.avg_entry_price * q_before + price * executed) / (q_before + executed)
          else 0 }
    else if q_after < 0 then st
    else if q_after = 0 then { st with avg_entry_price := 0 }
    else { st with avg_entry_price := price }
  else
    if q_before ≤ 0 then
      { st with avg_entry_price :=
          if 0 < -q_before + executed then
            (st.avg_entry_price * -q_before + price * executed) / (-q_before + executed)
          else 0 }
    else if 0 < q_after then st
    else if q_after = 0 then { st with avg_entry_price := 0 }
    else { st with avg_entry_price := price }

/-- `PortfolioManager.process_fill_market_making` (portfolio.py lines
127-166): clip the fill to the inventory bounds, move cash by the executed
size, update the blended average entry, histories and counters. -/
def process_fill_market_making (pm : PortfolioManager) (fill : Fill) : PortfolioManager :=
  let old_q := pm.state.q
  if fill.side = "buy" then
    let new_q := min (old_q + fill.size) pm.max_inventory
    let actual := new_q - old_q
    if actual ≤ 0 then pm
    else
      let st1 := { pm.state with cash := pm.state.cash - actual * fill.price, q := new_q }
      let st2 := update_avg_entry_price_on_fill st1 fill.side fill.price actual old_q new_q
      { pm with
        state := { st2 with
          total_trades := st2.total_trades + 1,
          btc_balance := st2.q,
          total_btc_bought := st2.total_btc_bought + actual,
          total_usd_spent := st2.total_usd_spent + actual * fill.price },
        fills_history := appendBounded 1000 pm.fills_history fill,
        recent_fills := appendBounded 10 pm.recent_fills fill }
  else
    let new_q := max (old_q - fill.size) pm.min_inventory
    let actual := old_q - new_q
    if actual ≤ 0 then pm
    else
      let st1 := { pm.state with cash := pm.state.cash + actual * fill.price, q := new_q }
      let st2 := update_avg_entry_price_on_fill st1 fill.side fill.price actual old_q new_q
      { pm with
        state := { st2 with
          total_trades := st2.total_trades + 1,
          btc_balance := st2.q,
          total_btc_sold := st2.total_btc_sold + actual,
          total_usd_received := st2.total_usd_received + actual * fill.price },
        fills_history := appendBounded 1000 pm.fills_history fill,
        recent_fills := appendBounded 10 pm.recent_fills fill }

/-- `PortfolioManager.simulate_fill_from_trade` (portfolio.py lines 67-125).
The Python truthiness test `if our_bid_price and ...` is `false` for `None`
and for a zero price, hence the `getD 0` reading of the optional price.
On a fill the ledger is updated synchronously; the pair returned is
(fill, updated manager). -/
def simulate_fill_from_trade (pm : PortfolioManager) (now : ℚ) (market_trade : Trade)
    (our_bid_price our_ask_price : Option ℚ) (our_bid_size our_ask_size : ℚ) :
    Option Fill × PortfolioManager :=
  let bp := our_bid_price.getD 0
  let ap := our_ask_price.getD 0
  if bp ≠ 0 ∧ 0 < our_bid_size ∧ market_trade.side = "sell" ∧ market_trade.price ≤ bp then
    if pm.max_inventory - pm.state.q ≤ 0 then (none, pm)
    else
      let fill_size := min (min our_bid_size market_trade.size) (pm.max_inventory - pm.state.q)
      if fill_size ≤ 0 then (none, pm)
      else
        let fill : Fill :=
          { timestamp := now, side := "buy", price := bp, size := fill_size,
            trade_id := "fill_bid" }
        (some fill, process_fill_market_making pm fill)
  else if ap ≠ 0 ∧ 0 < our_ask_size ∧ market_trade.side = "buy" ∧ ap ≤ market_trade.price then
    if pm.state.q - pm.min_inventory ≤ 0 then (none, pm)
    else
      let fill_size := min (min our_ask_size market_trade.size) (pm.state.q - pm.min_inventory)
      if fill_size ≤ 0 then (none, pm)
      else
        let fill : Fill :=
          { timestamp := now, side := "sell", price := ap, size := fill_size,
            trade_id := "fill_ask" }
        (some fill, process_fill_market_making pm fill)
  else (none, pm)

/-- `PortfolioManager.update_nav_and_pnl` (portfolio.py lines 222-242):
the mark operation; `nav = q * fair`, `pnl = cash + nav`, exposed
realized/unrealized is the cash/nav decomposition, bounded pnl history. -/
def update_nav_and_pnl (pm : PortfolioManager) (fair_price : ℚ) : PortfolioManager :=
  let nav := pm.state.q * fair_price
  let pnl := pm.state.cash + nav
  let hist := pm.pnl_history ++ [pnl]
  { pm with
    state := { pm.state with
      nav := nav,
      pnl := pnl,
      realized_pnl := pm.state.cash,
      unrealized_pnl := nav },
    pnl_history := if 1000 < hist.length then hist.drop 1 else hist }

/-- The field set of the dict built by `PortfolioManager.get_portfolio_summary`
(portfolio.py lines 250-280); the `recent_fills` list and the
`inventory_limit` display string are omitted as presentation-only. -/
structure PortfolioSummary where
  btc_balance : ℚ
  usd_balance : ℚ
  avg_entry_price : ℚ
  realized_pnl : ℚ
  unrealized_pnl : ℚ
  total_pnl : ℚ
  total_trades : Nat
  total_btc_bought : ℚ
  total_btc_sold : ℚ
  total_usd_spent : ℚ
  total_usd_received : ℚ
  notional_exposure : ℚ
  cash : ℚ
  position_q : ℚ
  nav : ℚ
  inventory_utilization : ℚ
deriving DecidableEq, Repr

/-- `PortfolioManager.get_portfolio_summary` (portfolio.py lines 250-280).
The source computes `abs(q) / max_inventory * 100` with no guard; in Python
a zero `max_inventory` raises `ZeroDivisionError`, modelled as `none`. -/
def get_portfolio_summary (pm : PortfolioManager) : Option PortfolioSummary :=
  if pm.max_inventory = 0 then none
  else some
    { btc_balance := pm.state.q, usd_balance := pm.state.usd_balance,
      avg_entry_price := pm.state.avg_entry_price,
      realized_pnl := pm.state.cash, unrealized_pnl := pm.state.nav,
      total_pnl := pm.state.pnl, total_trades := pm.state.total_trades,
      total_btc_bought := pm.state.total_btc_bought,
      total_btc_sold := pm.state.total_btc_sold,
      total_usd_spent := pm.state.total_usd_spent,
      total_usd_received := pm.state.total_usd_received,
      notional_exposure := |pm.state.nav|, cash := pm.state.cash,
      position_q := pm.state.q, nav := pm.state.nav,
      inventory_utilization := |pm.state.q| / pm.max_inventory * 100 }

/-- An event of the live ledger interface used to express reachability:
either a direct `process_fill_market_making` call or a
`simulate_fill_from_trade` call with the quotes the maker was resting. -/
inductive PortfolioEvent where
  | fill (f : Fill)
  | marketTrade (now : ℚ) (t : Trade) (our_bid_price our_ask_price : Option ℚ)
      (our_bid_size our_ask_size : ℚ)
deriving DecidableEq, Repr

/-- One ledger transition. -/
def portfolioStep (pm : PortfolioManager) : PortfolioEvent → PortfolioManager
  | .fill f => process_fill_market_making pm f
  | .marketTrade now t bp ap bs as =>
    (simulate_fill_from_trade pm now t bp ap bs as).2

/-- Run a sequence of ledger events. -/
def runPortfolio (pm : PortfolioManager) (es : List PortfolioEvent) : PortfolioManager :=
  es.foldl portfolioStep pm

lemma update_avg_entry_q_cash (st : PortfolioState) (side : String)
    (price executed q_before q_after : ℚ) :
    (update_avg_entry_price_on_fill st side price executed q_before q_after).q = st.q ∧
    (update_avg_entry_price_on_fill st side price executed q_before q_after).cash = st.cash := by
  simp only [update_avg_entry_price_on_fill]
  split_ifs <;> exact ⟨rfl, rfl⟩

lemma process_fill_limits (pm : PortfolioManager) (f : Fill) :
    (process_fill_market_making pm f).max_inventory = pm.max_inventory ∧
    (process_fill_market_making pm f).min_inventory = pm.min_inventory := by
  simp only [process_fill_market_making]
  split_ifs <;> exact ⟨rfl, rfl⟩

lemma process_fill_q_cases (pm : PortfolioManager) (f : Fill) :
    (process_fill_market_making pm f).state.q = pm.state.q ∨
    ((process_fill_market_making pm f).state.q = min (pm.state.q + f.size) pm.max_inventory ∧
      pm.state.q < min (pm.state.q + f.size) pm.max_inventory) ∨
    ((process_fill_market_making pm f).state.q = max (pm.state.q - f.size) pm.min_inventory ∧
      max (pm.state.q - f.size) pm.min_inventory < pm.state.q) := by
  simp only [process_fill_market_making]
  split_ifs with hside h1 h2
  · exact Or.inl rfl
  · exact Or.inr (Or.inl ⟨(update_avg_entry_q_cash _ _ _ _ _ _).1, by
      linarith [not_le.mp h1]⟩)
  · exact Or.inl rfl
  · exact Or.inr (Or.inr ⟨(update_avg_entry_q_cash _ _ _ _ _ _).1, by
      linarith [not_le.mp h2]⟩)

lemma simulate_snd_cases (pm : PortfolioManager) (now : ℚ) (t : Trade)
    (bp ap : Option ℚ) (bs as : ℚ) :
    (simulate_fill_from_trade pm now t bp ap bs as).2 = pm ∨
    ∃ f, (simulate_fill_from_trade pm now t bp ap bs as).2 =
      process_fill_market_making pm f := by
  simp only [simulate_fill_from_trade]
  split_ifs <;> dsimp only <;> first
    | exact Or.inl rfl
    | exact Or.inr ⟨_, rfl⟩

lemma portfolioStep_inv (B : ℚ) (pm : PortfolioManager) (e : PortfolioEvent)
    (h : pm.max_inventory = B ∧ pm.min_inventory = -B ∧
         -B ≤ pm.state.q ∧ pm.state.q ≤ B) :
    (portfolioStep pm e).max_inventory = B ∧ (portfolioStep pm e).min_inventory = -B ∧
    -B ≤ (portfolioStep pm e).state.q ∧ (portfolioStep pm e).state.q ≤ B := by
  obtain ⟨h1, h2, h3, h4⟩ := h
  have key : ∀ f : Fill,
      (process_fill_market_making pm f).max_inventory = B ∧
      (process_fill_market_making pm f).min_inventory = -B ∧
      -B ≤ (process_fill_market_making pm f).state.q ∧
      (process_fill_market_making pm f).state.q ≤ B := by
    intro f
    obtain ⟨hm1, hm2⟩ := process_fill_limits pm f
    refine ⟨hm1.trans h1, hm2.trans h2, ?_, ?_⟩
    · rcases process_fill_q_cases pm f with hq | ⟨hq, hlt⟩ | ⟨hq, hlt⟩ <;> rw [hq]
      · exact h3
      · linarith
      · linarith [le_max_right (pm.state.q - f.size) pm.min_inventory]
    · rcases process_fill_q_cases pm f with hq | ⟨hq, hlt⟩ | ⟨hq, hlt⟩ <;> rw [hq]
      · exact h4
      · linarith [min_le_right (pm.state.q + f.size) pm.max_inventory]
      · linarith
  cases e with
  | fill f => exact key f
  | marketTrade now t bp ap bs as =>
    rcases simulate_snd_cases pm now t bp ap bs as with hs | ⟨f, hs⟩
    · simp only [portfolioStep, hs]
      exact ⟨h1, h2, h3, h4⟩
    · simp only [portfolioStep, hs]
      exact key f

lemma runPortfolio_inv (B : ℚ) (es : List PortfolioEvent) :
    ∀ pm : PortfolioManager,
      (pm.max_inventory = B ∧ pm.min_inventory = -B ∧
       -B ≤ pm.state.q ∧ pm.state.q ≤ B) →
      (runPortfolio pm es).max_inventory = B ∧ (runPortfolio pm es).min_inventory = -B ∧
      -B ≤ (runPortfolio pm es).state.q ∧ (runPortfolio pm es).state.q ≤ B := by
  induction es with
  | nil => intro pm h; exact h
  | cons e es ih =>
    intro pm h
    exact ih (portfolioStep pm e) (portfolioStep_inv B pm e h)

/-- Claim C2: starting from the initial portfolio (q = 0) with a
nonnegative inventory cap, every state reachable through any sequence of
`simulate_fill_from_trade` / `process_fill_market_making` calls keeps
the inventory within the cap, `|q| ≤ max_inventory`. -/
theorem claim_C2_inventory_invariant (initial_usd max_inventory : ℚ)
    (h : 0 ≤ max_inventory) (es : List PortfolioEvent) :
    |(runPortfolio (initPortfolio initial_usd max_inventory) es).state.q| ≤ max_inventory := by
  have hinit : (initPortfolio initial_usd max_inventory).max_inventory = max_inventory ∧
      (initPortfolio initial_usd max_inventory).min_inventory = -max_inventory ∧
      -max_inventory ≤ (initPortfolio initial_usd max_inventory).state.q ∧
      (initPortfolio initial_usd max_inventory).state.q ≤ max_inventory := by
    refine ⟨rfl, rfl, ?_, ?_⟩
    · show -max_inventory ≤ 0
      linarith
    · show (0 : ℚ) ≤ max_inventory
      exact h
  obtain ⟨-, -, hlo, hhi⟩ := runPortfolio_inv max_inventory es _ hinit
  exact abs_le.mpr ⟨hlo, hhi⟩

/-- Witness for claim C2: a buy fill of size 3 against a cap of 1 leaves
the inventory within the cap. -/
theorem claim_C2_witness :
    (0 : ℚ) ≤ 1 ∧
    |(runPortfolio (initPortfolio 1000000 1)
        [PortfolioEvent.fill { timestamp := 0, side := "buy", price := 100, size := 3,
                               trade_id := "t1" }]).state.q| ≤ 1 :=
  ⟨by norm_num,
   claim_C2_inventory_invariant 1000000 1 (by norm_num)
     [PortfolioEvent.fill { timestamp := 0, side := "buy", price := 100, size := 3,
                            trade_id := "t1" }]⟩

/-- Claim C3: after every `update_nav_and_pnl fair_price` mark,
`nav = q * fair_price`, `pnl = cash + nav`, the exposed realized equals
cash and the exposed unrealized equals nav, while `q` and `cash` are
unchanged by the mark. -/
theorem claim_C3_mark_decomposition (pm : PortfolioManager) (fair_price : ℚ) :
    (update_nav_and_pnl pm fair_price).state.nav = pm.state.q * fair_price ∧
    (update_nav_and_pnl pm fair_price).state.pnl =
      (update_nav_and_pnl pm fair_price).state.cash +
        (update_nav_and_pnl pm fair_price).state.nav ∧
    (update_nav_and_pnl pm fair_price).state.realized_pnl =
      (update_nav_and_pnl pm fair_price).state.cash ∧
    (update_nav_and_pnl pm fair_price).state.unrealized_pnl =
      (update_nav_and_pnl pm fair_price).state.nav ∧
    (update_nav_and_pnl pm fair_price).state.q = pm.state.q ∧
    (update_nav_and_pnl pm fair_price).state.cash = pm.state.cash :=
  ⟨rfl, rfl, rfl, rfl, rfl, rfl⟩

/-- Claim C5: the bid fills iff the trade is a sell at or below our bid,
the ask fills iff the trade is a buy at or above our ask, at most one side
fills, the filled size is the candidate `min(ourSize, trade.size)` clipped
to the inventory headroom, and a non-positive clipped size produces no
fill and leaves the manager unchanged.  Quotes are posted with positive
prices. -/
theorem claim_C5_fill_conditions (pm : PortfolioManager) (now : ℚ) (t : Trade)
    (bp ap bs as : ℚ) (hbp : 0 < bp) (hap : 0 < ap) :
    ((∃ f, (simulate_fill_from_trade pm now t (some bp) (some ap) bs as).1 = some f ∧
        f.side = "buy") ↔
      t.side = "sell" ∧ t.price ≤ bp ∧
        0 < min (min bs t.size) (pm.max_inventory - pm.state.q)) ∧
    ((∃ f, (simulate_fill_from_trade pm now t (some bp) (some ap) bs as).1 = some f ∧
        f.side = "sell") ↔
      t.side = "buy" ∧ ap ≤ t.price ∧
        0 < min (min as t.size) (pm.state.q - pm.min_inventory)) ∧
    (∀ f, (simulate_fill_from_trade pm now t (some bp) (some ap) bs as).1 = some f →
      (f.side = "buy" ∧ f.size = min (min bs t.size) (pm.max_inventory - pm.state.q)) ∨
      (f.side = "sell" ∧ f.size = min (min as t.size) (pm.state.q - pm.min_inventory))) ∧
    ((simulate_fill_from_trade pm now t (some bp) (some ap) bs as).1 = none →
      simulate_fill_from_trade pm now t (some bp) (some ap) bs as = (none, pm)) := by
  have hbp' : bp ≠ 0 := ne_of_gt hbp
  have hap' : ap ≠ 0 := ne_of_gt hap
  simp only [simulate_fill_from_trade, Option.getD_some]
  split_ifs with h1 h2 h3 h4 h5 h6 <;> dsimp only
  -- bid conditions hold, no inventory headroom
  · obtain ⟨-, -, hside, hple⟩ := h1
    refine ⟨⟨?_, ?_⟩, ⟨?_, ?_⟩, ?_, fun _ => rfl⟩
    · rintro ⟨f, hf, -⟩; exact hf.elim
    · rintro ⟨-, -, hpos⟩
      exact absurd hpos (not_lt.mpr (le_trans (min_le_right _ _) h2))
    · rintro ⟨f, hf, -⟩; exact hf.elim
    · rintro ⟨hbuy, -, -⟩; rw [hside] at hbuy; exact absurd hbuy (by decide)
    · intro f hf; exact hf.elim
  -- bid conditions hold, clipped size non-positive
  · obtain ⟨-, -, hside, hple⟩ := h1
    refine ⟨⟨?_, ?_⟩, ⟨?_, ?_⟩, ?_, fun _ => rfl⟩
    · rintro ⟨f, hf, -⟩; exact hf.elim
    · rintro ⟨-, -, hpos⟩; exact absurd hpos (not_lt.mpr h3)
    · rintro ⟨f, hf, -⟩; exact hf.elim
    · rintro ⟨hbuy, -, -⟩; rw [hside] at hbuy; exact absurd hbuy (by decide)
    · intro f hf; exact hf.elim
  -- bid fills
  · obtain ⟨-, -, hside, hple⟩ := h1
    refine ⟨⟨?_, ?_⟩, ⟨?_, ?_⟩, ?_, ?_⟩
    · exact fun _ => ⟨hside, hple, not_le.mp h3⟩
    · exact fun _ => ⟨_, rfl, rfl⟩
    · rintro ⟨f, hf, hsell⟩
      injection hf with hf; subst hf
      simp at hsell
    · rintro ⟨hbuy, -, -⟩; rw [hside] at hbuy; exact absurd hbuy (by decide)
    · intro f hf
      injection hf with hf; subst hf
      exact Or.inl ⟨rfl, rfl⟩
    · intro hf; exact hf.elim
  -- ask conditions hold, no inventory headroom
  · obtain ⟨-, -, hside, hple⟩ := h4
    refine ⟨⟨?_, ?_⟩, ⟨?_, ?_⟩, ?_, fun _ => rfl⟩
    · rintro ⟨f, hf, -⟩; exact hf.elim
    · rintro ⟨hsell, -, -⟩; rw [hside] at hsell; exact absurd hsell (by decide)
    · rintro ⟨f, hf, -⟩; exact hf.elim
    · rintro ⟨-, -, hpos⟩
      exact absurd hpos (not_lt.mpr (le_trans (min_le_right _ _) h5))
    · intro f hf; exact hf.elim
  -- ask conditions hold, clipped size non-positive
  · obtain ⟨-, -, hside, hple⟩ := h4
    refine ⟨⟨?_, ?_⟩, ⟨?_, ?_⟩, ?_, fun _ => rfl⟩
    · rintro ⟨f, hf, -⟩; exact hf.elim
    · rintro ⟨hsell, -, -⟩; rw [hside] at hsell; exact absurd hsell (by decide)
    · rintro ⟨f, hf, -⟩; exact hf.elim
    · rintro ⟨-, -, hpos⟩; exact absurd hpos (not_lt.mpr h6)
    · intro f hf; exact hf.elim
  -- ask fills
  · obtain ⟨-, -, hside, hple⟩ := h4
    refine ⟨⟨?_, ?_⟩, ⟨?_, ?_⟩, ?_, ?_⟩
    · rintro ⟨f, hf, hbuy⟩
      injection hf with hf; subst hf
      simp at hbuy
    · rintro ⟨hsell, -, -⟩; rw [hside] at hsell; exact absurd hsell (by decide)
    · exact fun _ => ⟨hside, hple, not_le.mp h6⟩
    · exact fun _ => ⟨_, rfl, rfl⟩
    · intro f hf
      injection hf with hf; subst hf
      exact Or.inr ⟨rfl, rfl⟩
    · intro hf; exact hf.elim
  -- neither side matches
  · refine ⟨⟨?_, ?_⟩, ⟨?_, ?_⟩, ?_, fun _ => rfl⟩
    · rintro ⟨f, hf, -⟩; exact hf.elim
    · rintro ⟨hside, hple, hpos⟩
      have hbs : 0 < bs :=
        lt_of_lt_of_le hpos (le_trans (min_le_left _ _) (min_le_left _ _))
      exact (h1 ⟨hbp', hbs, hside, hple⟩).elim
    · rintro ⟨f, hf, -⟩; exact hf.elim
    · rintro ⟨hside, hple, hpos⟩
      have has : 0 < as :=
        lt_of_lt_of_le hpos (le_trans (min_le_left _ _) (min_le_left _ _))
      exact (h4 ⟨hap', has, hside, hple⟩).elim
    · intro f hf; exact hf.elim

/-- Witness for claim C5: a market sell at 99 against our bid 100 (ask
101), sizes 0.5, from the initial portfolio with cap 5: the bid-fill
characterisation holds at these inputs. -/
theorem claim_C5_witness :
    (0 : ℚ) < 100 ∧ (0 : ℚ) < 101 ∧
    ((∃ f, (simulate_fill_from_trade (initPortfolio 1000000 5) 0
        { timestamp := 0, price := 99, size := 1, side := "sell" }
        (some 100) (some 101) (1/2) (1/2)).1 = some f ∧ f.side = "buy") ↔
      ({ timestamp := 0, price := 99, size := 1, side := "sell" } : Trade).side = "sell" ∧
      ({ timestamp := 0, price := 99, size := 1, side := "sell" } : Trade).price ≤ 100 ∧
      0 < min (min (1/2)
          ({ timestamp := 0, price := 99, size := 1, side := "sell" } : Trade).size)
        ((initPortfolio 1000000 5).max_inventory - (initPortfolio 1000000 5).state.q)) :=
  ⟨by norm_num, by norm_num,
   (claim_C5_fill_conditions (initPortfolio 1000000 5) 0
      { timestamp := 0, price := 99, size := 1, side := "sell" }
      100 101 (1/2) (1/2) (by norm_num) (by norm_num)).1⟩

/-- Claim C10 (implicit): whenever the fill simulator emits a fill, the
fill price is the maker's own resting quote price for that side (the bid
price for a buy, the ask price for a sell), never the observed trade
price. -/
theorem claim_C10_fill_at_quote_price (pm : PortfolioManager) (now : ℚ) (t : Trade)
    (our_bid_price our_ask_price : Option ℚ) (our_bid_size our_ask_size : ℚ) (f : Fill)
    (h : (simulate_fill_from_trade pm now t our_bid_price our_ask_price
            our_bid_size our_ask_size).1 = some f) :
    (f.side = "buy" ∧ f.price = our_bid_price.getD 0) ∨
    (f.side = "sell" ∧ f.price = our_ask_price.getD 0) := by
  simp only [simulate_fill_from_trade] at h
  split_ifs at h <;> dsimp only at h
  · injection h with h; subst h; exact Or.inl ⟨rfl, rfl⟩
  · injection h with h; subst h; exact Or.inr ⟨rfl, rfl⟩

/-- Witness for claim C10: a market sell printing at 99, strictly better
than our bid 100, still fills at the quote price 100, not at 99. -/
theorem claim_C10_witness :
    ((simulate_fill_from_trade (initPortfolio 1000000 5) 0
        { timestamp := 0, price := 99, size := 1, side := "sell" }
        (some 100) (some 101) (1/2) (1/2)).1 =
      some { timestamp := 0, side := "buy", price := 100, size := 1/2,
             trade_id := "fill_bid" }) ∧
    (({ timestamp := 0, side := "buy", price := 100, size := 1/2,
        trade_id := "fill_bid" } : Fill).side = "buy" ∧
      ({ timestamp := 0, side := "buy", price := 100, size := 1/2,
         trade_id := "fill_bid" } : Fill).price = (some (100 : ℚ)).getD 0 ∨
     ({ timestamp := 0, side := "buy", price := 100, size := 1/2,
        trade_id := "fill_bid" } : Fill).side = "sell" ∧
      ({ timestamp := 0, side := "buy", price := 100, size := 1/2,
         trade_id := "fill_bid" } : Fill).price = (some (101 : ℚ)).getD 0) ∧
    (99 : ℚ) < 100 := by
  have hEval : (simulate_fill_from_trade (initPortfolio 1000000 5) 0
      { timestamp := 0, price := 99, size := 1, side := "sell" }
      (some 100) (some 101) (1/2) (1/2)).1 =
      some { timestamp := 0, side := "buy", price := 100, size := 1/2,
             trade_id := "fill_bid" } := by
    norm_num [simulate_fill_from_trade, initPortfolio, min_def]
  exact ⟨hEval,
    claim_C10_fill_at_quote_price (initPortfolio 1000000 5) 0
      { timestamp := 0, price := 99, size := 1, side := "sell" }
      (some 100) (some 101) (1/2) (1/2) _ hEval,
    by norm_num⟩

/-- Counterexample to claim C7: the portfolio-summary operation is NOT
total for `max_inventory = 0` — the source divides `abs(q)` by the
inventory cap with no guard, raising `ZeroDivisionError` (modelled
`none`). -/
theorem claim_C7_counterexample :
    get_portfolio_summary (initPortfolio 1000000 0) = none := by
  norm_num [get_portfolio_summary, initPortfolio]

/-- Claim C7 amended: the divisions in the imbalance ratio (combined
volume), in spread-for-size (target size) and in the spread metrics
(window length) are guarded, yielding 0 or zero metrics on a zero
divisor; the portfolio summary however is only total when the inventory
cap is nonzero. -/
theorem claim_C7_division_guards :
    (∀ bid_vol ask_vol : ℚ, bid_vol + ask_vol ≤ 0 → ratio bid_vol ask_vol = 0) ∧
    (∀ (bids asks : List OrderBookLevel) (target : ℚ), target ≤ 0 →
      calculate_spread_for_size bids asks target = 0) ∧
    get_spread_metrics [] = ⟨0, 0, 0, 0⟩ ∧
    (∀ pm : PortfolioManager, pm.max_inventory ≠ 0 →
      (get_portfolio_summary pm).isSome = true) := by
  refine ⟨?_, ?_, rfl, ?_⟩
  · intro b a h
    simp [ratio, h]
  · intro bids asks target ht
    by_cases h : bids = [] ∨ asks = []
    · simp [calculate_spread_for_size, h]
    · simp [calculate_spread_for_size, h, avgSidePrice, not_lt.mpr ht]
  · intro pm h
    simp [get_portfolio_summary, h]

/-- Witness for the amended claim C7: concrete zero-divisor inputs. -/
theorem claim_C7_witness :
    ratio 0 0 = 0 ∧
    calculate_spread_for_size [⟨100, 1⟩] [⟨101, 1⟩] (-1) = 0 ∧
    (get_portfolio_summary (initPortfolio 1000000 5)).isSome = true :=
  ⟨claim_C7_division_guards.1 0 0 (by norm_num),
   claim_C7_division_guards.2.1 [⟨100, 1⟩] [⟨101, 1⟩] (-1) (by norm_num),
   claim_C7_division_guards.2.2.2 (initPortfolio 1000000 5)
     (by norm_num [initPortfolio])⟩

/-- Claim C1 is a code bug: the source computes `expo` from
`abs(current_position)` (strategy.py line 129), so `expo` is never
negative and the `elif expo < 0` short branch (annotated in the source as
the short case, with `expo = q / max_inv` described as lying in
`[-1, +1]`) is unreachable.  At this concrete short position (−5 BTC,
book 100000/100002, default config, risk gate passing, `|expo| ≈ 0.5`
above the deadband) the code leaves the bid at the best bid 100000 and
tightens the ask to 100000.01, where the claim (and the spec) require
the ask kept at 100002 and only the bid tightened to 100001.99. -/
theorem claim_C1_short_position_divergence :
    generate_quotes defaultConfig [⟨100000, 1⟩] [⟨100002, 1⟩] (-5) 0 0 0 =
      some (some { side := "bid", price := 100000, size := 1/20, timestamp := 0 },
            some { side := "ask", price := 10000001/100, size := 1/20, timestamp := 0 }) := by
  norm_num [generate_quotes, calculate_fair_price, check_risk_limits,
    calculate_order_size, defaultConfig, min_def, max_def,
    abs_of_pos (show (0 : ℚ) < 100001/200000 by norm_num)]

/-- Claim C9: `should_update_quotes` is true iff the elapsed time since the
last quote update exceeds the refresh interval; any `update_quotes` call
within one refresh interval of the last update returns the no-change
result with the state untouched (so a second call right after an update
changes nothing); and when a refresh does find a significant change on
either side, both current quotes are replaced together. -/
theorem claim_C9_refresh_throttling (cfg : MarketMakingConfig) :
    (∀ (s : StrategyState) (now : ℚ),
      should_update_quotes cfg s now = true ↔
        cfg.quote_refresh_interval < now - s.last_quote_time) ∧
    (∀ (s : StrategyState) (now : ℚ) (bids asks : List OrderBookLevel)
        (pos pnl upnl : ℚ),
      now - s.last_quote_time ≤ cfg.quote_refresh_interval →
      update_quotes cfg s now bids asks pos pnl upnl = some ((none, none), s)) ∧
    (∀ (s : StrategyState) (now : ℚ) (bids asks : List OrderBookLevel)
        (pos pnl upnl : ℚ) (nb na : Option Quote),
      should_update_quotes cfg s now = true →
      generate_quotes cfg bids asks pos pnl upnl now = some (nb, na) →
      (quote_changed s.current_bid nb || quote_changed s.current_ask na) = true →
      update_quotes cfg s now bids asks pos pnl upnl =
        some ((nb, na),
          { s with current_bid := nb, current_ask := na,
                   last_quote_time := now,
                   quotes_updated := s.quotes_updated + 1 })) := by
  refine ⟨?_, ?_, ?_⟩
  · intro s now
    constructor
    · intro h
      by_cases hc : cfg.quote_refresh_interval < now - s.last_quote_time
      · exact hc
      · rw [should_update_quotes, if_neg hc] at h
        exact absurd h (by decide)
    · intro hc
      rw [should_update_quotes, if_pos hc]
  · intro s now bids asks pos pnl upnl h
    have hs : should_update_quotes cfg s now = false := by
      rw [should_update_quotes, if_neg (not_lt.mpr h)]
    simp [update_quotes, hs]
  · intro s now bids asks pos pnl upnl nb na hs hg hc
    simp [update_quotes, hs, hg, hc]

/-- Witness for claim C9 at concrete inputs: with the default config and a
fresh strategy state, a call at time 0.1 (not exceeding the 0.1s interval)
changes nothing; a call at time 1 finds the book 100/101, generates the
top-of-book quote pair and installs both. -/
theorem claim_C9_witness :
    (should_update_quotes defaultConfig {} 1 = true ↔
      defaultConfig.quote_refresh_interval < 1 - ({} : StrategyState).last_quote_time) ∧
    update_quotes defaultConfig {} (1/10) [⟨100, 1⟩] [⟨101, 1⟩] 0 0 0 =
      some ((none, none), {}) ∧
    update_quotes defaultConfig {} 1 [⟨100, 1⟩] [⟨101, 1⟩] 0 0 0 =
      some ((some { side := "bid", price := 100, size := 1/20, timestamp := 1 },
             some { side := "ask", price := 101, size := 1/20, timestamp := 1 }),
        { ({} : StrategyState) with
            current_bid := some { side := "bid", price := 100, size := 1/20, timestamp := 1 },
            current_ask := some { side := "ask", price := 101, size := 1/20, timestamp := 1 },
            last_quote_time := 1,
            quotes_updated := ({} : StrategyState).quotes_updated + 1 }) :=
  ⟨(claim_C9_refresh_throttling defaultConfig).1 {} 1,
   (claim_C9_refresh_throttling defaultConfig).2.1 {} (1/10) [⟨100, 1⟩] [⟨101, 1⟩] 0 0 0
     (by norm_num [defaultConfig]),
   (claim_C9_refresh_throttling defaultConfig).2.2 {} 1 [⟨100, 1⟩] [⟨101, 1⟩] 0 0 0
     (some { side := "bid", price := 100, size := 1/20, timestamp := 1 })
     (some { side := "ask", price := 101, size := 1/20, timestamp := 1 })
     (by norm_num [should_update_quotes, defaultConfig])
     (by norm_num [generate_quotes, calculate_fair_price, check_risk_limits,
        calculate_order_size, defaultConfig, min_def, max_def])
     (by rfl)⟩

/-! ## Offline P&L reconstructor (analyze.py, `compute_pnl_from_trades`)

The reconstructor is modelled post-parse: `price` and `size` are already
rational (the claims only concern rows with parseable numeric fields, and
unparseable rows are skipped by the source), and the `mark` field holds
the parsed value of the configured mark column when that column is
configured, present in the row and parseable — in every other case the
source falls back to the fill price, which is what `Option.getD` renders.
The stable time-sort preamble is omitted: every property proved below is
quantified over all input orders, hence holds for the sorted order. -/

/-- One historical fill row, post-parse. -/
structure TradeRow where
  side : String
  price : ℚ
  size : ℚ
  mark : Option ℚ
deriving DecidableEq, Repr

/-- The Python test `side.lower().startswith("b")` on the row side
(analyze.py line 111), for ASCII sides: first character is `b` or `B`. -/
def sideIsBuy (side : String) : Bool :=
  match side.data with
  | [] => false
  | c :: _ => c = 'b' ∨ c = 'B'

/-- The running accumulator of the reconstructor (analyze.py lines
98-101): position, average cost, cash, cumulative realized. -/
structure PnlAcc where
  q : ℚ
  ac : ℚ
  cash : ℚ
  realized : ℚ
deriving DecidableEq, Repr

/-- One output row of the reconstructor (analyze.py lines 124-137 and
177-190); the timestamp and trade id pass-through fields are omitted. -/
structure PnlRow where
  side : String
  price : ℚ
  size : ℚ
  position : ℚ
  avg_entry_price : ℚ
  cash : ℚ
  realized_pnl : ℚ
  unrealized_pnl : ℚ
  total_pnl : ℚ
  mark_price : ℚ
deriving DecidableEq, Repr

/-- Assemble an output row from the (post-update) accumulator: unrealized
is `(mark - ac) * q` and total is `realized + unrealized`. -/
def mkPnlRow (side0 : String) (price sz mark : ℚ) (acc : PnlAcc) : PnlRow :=
  { side := side0, price := price, size := sz, position := acc.q,
    avg_entry_price := acc.ac, cash := acc.cash, realized_pnl := acc.realized,
    unrealized_pnl := (mark - acc.ac) * acc.q,
    total_pnl := acc.realized + (mark - acc.ac) * acc.q, mark_price := mark }

/-- The close-then-open average-cost step of the reconstructor (analyze.py
lines 140-167) for a nonzero clipped delta `dq`: debit cash by
`dq * price`, close any opposite exposure crystallizing realized P&L
(resetting the average cost when flattened), and open the remainder at
the fill price with the weighted-average formula. -/
def closeThenOpen (acc : PnlAcc) (price dq : ℚ) : PnlAcc :=
  if 0 < dq then
    if acc.q < 0 then
      let close := min (-acc.q) dq
      let realized1 := acc.realized + (acc.ac - price) * close
      let q1 := acc.q + close
      let ac1 := if q1 = 0 then 0 else acc.ac
      let dq1 := dq - close
      if 0 < dq1 then
        { q := q1 + dq1,
          ac := if q1 + dq1 ≠ 0 then (q1 * ac1 + dq1 * price) / (q1 + dq1) else 0,
          cash := acc.cash - dq * price, realized := realized1 }
      else { q := q1, ac := ac1, cash := acc.cash - dq * price, realized := realized1 }
    else
      { q := acc.q + dq,
        ac := if acc.q + dq ≠ 0 then (acc.q * acc.ac + dq * price) / (acc.q + dq) else 0,
        cash := acc.cash - dq * price, realized := acc.realized }
  else
    if 0 < acc.q then
      let close := min acc.q (-dq)
      let realized1 := acc.realized + (price - acc.ac) * close
      let q1 := acc.q - close
      let ac1 := if q1 = 0 then 0 else acc.ac
      let sq1 := -dq - close
      if 0 < sq1 then
        { q := q1 - sq1,
          ac := if -q1 + sq1 ≠ 0 then (-q1 * ac1 + sq1 * price) / (-q1 + sq1) else 0,
          cash := acc.cash - dq * price, realized := realized1 }
      else { q := q1, ac := ac1, cash := acc.cash - dq * price, realized := realized1 }
    else
      if 0 < -dq then
        { q := acc.q - -dq,
          ac := if -acc.q + -dq ≠ 0 then (-acc.q * acc.ac + -dq * price) / (-acc.q + -dq) else 0,
          cash := acc.cash - dq * price, realized := acc.realized }
      else { acc with cash := acc.cash - dq * price }

/-- One fill of `compute_pnl_from_trades` (analyze.py lines 104-190):
signed desired position, optional inventory-cap clipping (only applied
when the cap is given, finite and positive), the `|dq| < 1e-15` absorbed
branch emitting a size-0 row with the accumulator untouched, otherwise
the close-then-open step; returns the new accumulator and the emitted
row. -/
def pnlStep (max_inventory : Option ℚ) (acc : PnlAcc) (r : TradeRow) :
    PnlAcc × PnlRow :=
  let s : ℚ := if sideIsBuy r.side then 1 else -1
  let desired_q := acc.q + s * |r.size|
  let new_q :=
    match max_inventory with
    | some m => if 0 < m then max (-m) (min desired_q m) else desired_q
    | none => desired_q
  let dq := new_q - acc.q
  if |dq| < 1 / 10 ^ 15 then
    (acc, mkPnlRow r.side r.price 0 (r.mark.getD r.price) acc)
  else
    let acc2 := closeThenOpen acc r.price dq
    (acc2, mkPnlRow r.side r.price |dq| (r.mark.getD r.price) acc2)

/-- The fold of `compute_pnl_from_trades` over the (time-ordered) rows. -/
def pnlRun (max_inventory : Option ℚ) (acc : PnlAcc) : List TradeRow → List PnlRow
  | [] => []
  | r :: rs =>
    (pnlStep max_inventory acc r).2 :: pnlRun max_inventory (pnlStep max_inventory acc r).1 rs

/-- `compute_pnl_from_trades` (analyze.py lines 90-192), from the zero
accumulator. -/
def compute_pnl_from_trades (max_inventory : Option ℚ) (rows : List TradeRow) :
    List PnlRow :=
  pnlRun max_inventory { q := 0, ac := 0, cash := 0, realized := 0 } rows

lemma closeThenOpen_inv (acc : PnlAcc) (price dq : ℚ)
    (h : acc.realized = acc.cash + acc.q * acc.ac) :
    (closeThenOpen acc price dq).realized =
      (closeThenOpen acc price dq).cash +
        (closeThenOpen acc price dq).q * (closeThenOpen acc price dq).ac := by
  simp only [closeThenOpen]
  split_ifs with h1 h2 h3 h4 h5 h6 h7 h8 h9 h10 h11 h12 h13 h14 h15 <;> dsimp only
  -- buy, close then open, flattened
  · rcases min_cases (-acc.q) dq with ⟨hm, hc⟩ | ⟨hm, hc⟩ <;> rw [hm] at h3 h4 h5 ⊢
    · rw [mul_comm (acc.q + -acc.q + (dq - -acc.q))
          (((acc.q + -acc.q) * 0 + (dq - -acc.q) * price) / (acc.q + -acc.q + (dq - -acc.q))),
        div_mul_cancel₀ _ h4]
      linear_combination h
    · exact absurd (by linarith : acc.q + dq + (dq - dq) = 0) h4
  -- buy, close then open, not flattened (impossible to keep old ac: q1 ≠ 0 means close = dq)
  · rcases min_cases (-acc.q) dq with ⟨hm, hc⟩ | ⟨hm, hc⟩ <;> rw [hm] at h3 h4 h5 ⊢
    · exact absurd (by ring : acc.q + -acc.q = 0) h5
    · exact absurd h3 (by linarith)
  -- buy, open with zero denominator guard
  · rcases min_cases (-acc.q) dq with ⟨hm, hc⟩ | ⟨hm, hc⟩ <;> rw [hm] at h3 h4 ⊢
    · push_neg at h4
      linear_combination h + price * h4
    · exact absurd h3 (by linarith)
  -- buy, pure close, flattened
  · rcases min_cases (-acc.q) dq with ⟨hm, hc⟩ | ⟨hm, hc⟩ <;> rw [hm] at h3 h6 ⊢
    · have hdq : dq = -acc.q := le_antisymm (by linarith) hc
      rw [hdq]
      linear_combination h
    · exfalso
      linarith
  -- buy, pure close, still short
  · rcases min_cases (-acc.q) dq with ⟨hm, hc⟩ | ⟨hm, hc⟩ <;> rw [hm] at h3 h6 ⊢
    · exact absurd (by ring : acc.q + -acc.q = 0) h6
    · linear_combination h
  -- buy, reinforce long
  · rw [mul_comm (acc.q + dq) ((acc.q * acc.ac + dq * price) / (acc.q + dq)),
      div_mul_cancel₀ _ h7]
    linear_combination h
  -- buy, reinforce long, impossible zero denominator
  · exfalso
    push_neg at h2 h7
    linarith
  -- sell, close then open, flattened
  · rcases min_cases acc.q (-dq) with ⟨hm, hc⟩ | ⟨hm, hc⟩ <;> rw [hm] at h9 h10 h11 ⊢
    · field_simp
      linear_combination h
    · exact absurd (by linarith : -(acc.q - -dq) + (-dq - -dq) = 0) h10
  -- sell, close then open, not flattened
  · rcases min_cases acc.q (-dq) with ⟨hm, hc⟩ | ⟨hm, hc⟩ <;> rw [hm] at h9 h10 h11 ⊢
    · exact absurd (by ring : acc.q - acc.q = 0) h11
    · exact absurd h9 (by linarith)
  -- sell, open with zero denominator guard
  · rcases min_cases acc.q (-dq) with ⟨hm, hc⟩ | ⟨hm, hc⟩ <;> rw [hm] at h9 h10 ⊢
    · push_neg at h10
      linear_combination h - price * h10
    · exact absurd h9 (by linarith)
  -- sell, pure close, flattened
  · rcases min_cases acc.q (-dq) with ⟨hm, hc⟩ | ⟨hm, hc⟩ <;> rw [hm] at h9 h12 ⊢
    · have hdq : -dq = acc.q := le_antisymm (by linarith) hc
      rw [show dq = -acc.q by linarith]
      linear_combination h
    · exfalso
      linarith
  -- sell, pure close, still long
  · rcases min_cases acc.q (-dq) with ⟨hm, hc⟩ | ⟨hm, hc⟩ <;> rw [hm] at h9 h12 ⊢
    · exact absurd (by ring : acc.q - acc.q = 0) h12
    · linear_combination h
  -- sell, reinforce short
  · field_simp
    linear_combination (-acc.q + -dq) * h
  -- sell, reinforce short, impossible zero denominator
  · exfalso
    push_neg at h8 h14
    linarith
  -- dq = 0, nothing happens
  · have : dq = 0 := by
      push_neg at h1 h13
      linarith
    rw [this]
    linear_combination h

lemma pnlStep_fst_inv (m : Option ℚ) (acc : PnlAcc) (r : TradeRow)
    (h : acc.realized = acc.cash + acc.q * acc.ac) :
    (pnlStep m acc r).1.realized =
      (pnlStep m acc r).1.cash + (pnlStep m acc r).1.q * (pnlStep m acc r).1.ac := by
  simp only [pnlStep]
  split_ifs <;> dsimp only <;>
    first
      | exact h
      | exact closeThenOpen_inv acc r.price _ h

lemma mkPnlRow_props (side0 : String) (price sz mark : ℚ) (acc : PnlAcc)
    (h : acc.realized = acc.cash + acc.q * acc.ac) :
    (mkPnlRow side0 price sz mark acc).total_pnl =
      (mkPnlRow side0 price sz mark acc).realized_pnl +
        (mkPnlRow side0 price sz mark acc).unrealized_pnl ∧
    (mkPnlRow side0 price sz mark acc).total_pnl =
      (mkPnlRow side0 price sz mark acc).cash +
        (mkPnlRow side0 price sz mark acc).position *
          (mkPnlRow side0 price sz mark acc).mark_price := by
  refine ⟨rfl, ?_⟩
  show acc.realized + (mark - acc.ac) * acc.q = acc.cash + acc.q * mark
  linear_combination h

lemma pnlStep_row_props (m : Option ℚ) (acc : PnlAcc) (r : TradeRow)
    (h : acc.realized = acc.cash + acc.q * acc.ac) :
    (pnlStep m acc r).2.total_pnl =
      (pnlStep m acc r).2.realized_pnl + (pnlStep m acc r).2.unrealized_pnl ∧
    (pnlStep m acc r).2.total_pnl =
      (pnlStep m acc r).2.cash +
        (pnlStep m acc r).2.position * (pnlStep m acc r).2.mark_price := by
  simp only [pnlStep]
  split_ifs <;> dsimp only <;>
    first
      | exact mkPnlRow_props _ _ _ _ _ h
      | exact mkPnlRow_props _ _ _ _ _ (closeThenOpen_inv acc r.price _ h)

lemma pnlRun_row_props (m : Option ℚ) :
    ∀ (rows : List TradeRow) (acc : PnlAcc),
      acc.realized = acc.cash + acc.q * acc.ac →
      ∀ row ∈ pnlRun m acc rows,
        row.total_pnl = row.realized_pnl + row.unrealized_pnl ∧
        row.total_pnl = row.cash + row.position * row.mark_price := by
  intro rows
  induction rows with
  | nil => intro acc _ row hrow; exact absurd hrow (List.not_mem_nil row)
  | cons r rs ih =>
    intro acc h row hrow
    rcases List.mem_cons.mp hrow with hrow | hrow
    · subst hrow; exact pnlStep_row_props m acc r h
    · exact ih (pnlStep m acc r).1 (pnlStep_fst_inv m acc r h) row hrow

/-- Claim C4: every row the offline reconstructor emits satisfies the
per-row invariant `total = realized + unrealized = cash + position * mark`
(exactly, over the rationals). -/
theorem claim_C4_row_invariant (m : Option ℚ) (rows : List TradeRow) (row : PnlRow)
    (hrow : row ∈ compute_pnl_from_trades m rows) :
    row.total_pnl = row.realized_pnl + row.unrealized_pnl ∧
    row.total_pnl = row.cash + row.position * row.mark_price :=
  pnlRun_row_props m rows { q := 0, ac := 0, cash := 0, realized := 0 } (by norm_num)
    row hrow

/-- Witness for claim C4: the row produced by a single buy 1 at 100. -/
theorem claim_C4_witness :
    (({ side := "buy", price := 100, size := 1, position := 1, avg_entry_price := 100,
        cash := -100, realized_pnl := 0, unrealized_pnl := 0, total_pnl := 0,
        mark_price := 100 } : PnlRow)
      ∈ compute_pnl_from_trades none
          [{ side := "buy", price := 100, size := 1, mark := none }]) ∧
    (({ side := "buy", price := 100, size := 1, position := 1, avg_entry_price := 100,
        cash := -100, realized_pnl := 0, unrealized_pnl := 0, total_pnl := 0,
        mark_price := 100 } : PnlRow).total_pnl =
      ({ side := "buy", price := 100, size := 1, position := 1, avg_entry_price := 100,
         cash := -100, realized_pnl := 0, unrealized_pnl := 0, total_pnl := 0,
         mark_price := 100 } : PnlRow).realized_pnl +
        ({ side := "buy", price := 100, size := 1, position := 1, avg_entry_price := 100,
           cash := -100, realized_pnl := 0, unrealized_pnl := 0, total_pnl := 0,
           mark_price := 100 } : PnlRow).unrealized_pnl ∧
     ({ side := "buy", price := 100, size := 1, position := 1, avg_entry_price := 100,
        cash := -100, realized_pnl := 0, unrealized_pnl := 0, total_pnl := 0,
        mark_price := 100 } : PnlRow).total_pnl =
      ({ side := "buy", price := 100, size := 1, position := 1, avg_entry_price := 100,
         cash := -100, realized_pnl := 0, unrealized_pnl := 0, total_pnl := 0,
         mark_price := 100 } : PnlRow).cash +
        ({ side := "buy", price := 100, size := 1, position := 1, avg_entry_price := 100,
           cash := -100, realized_pnl := 0, unrealized_pnl := 0, total_pnl := 0,
           mark_price := 100 } : PnlRow).position *
          ({ side := "buy", price := 100, size := 1, position := 1, avg_entry_price := 100,
             cash := -100, realized_pnl := 0, unrealized_pnl := 0, total_pnl := 0,
             mark_price := 100 } : PnlRow).mark_price) := by
  have hb : sideIsBuy ("buy") = true := by decide
  have hmem : ({ side := "buy", price := 100, size := 1, position := 1,
                 avg_entry_price := 100, cash := -100, realized_pnl := 0,
                 unrealized_pnl := 0, total_pnl := 0, mark_price := 100 } : PnlRow)
      ∈ compute_pnl_from_trades none
          [{ side := "buy", price := 100, size := 1, mark := none }] := by
    norm_num [compute_pnl_from_trades, pnlRun, pnlStep, closeThenOpen, mkPnlRow, hb]
  exact ⟨hmem,
    claim_C4_row_invariant none [{ side := "buy", price := 100, size := 1, mark := none }]
      _ hmem⟩

/-- Counterexample to claim C8: with the inventory cap 1 and a mark column
configured, a second buy that is entirely absorbed by clipping emits its
row with the parsed mark-column value 50, not the fill price 100 — the
clipped branch (analyze.py line 121) still prefers the mark column, so
"a mark price equal to the fill's own price" fails whenever the mark
column is present and parseable. -/
theorem claim_C8_counterexample :
    ((compute_pnl_from_trades (some 1)
        [{ side := "buy", price := 100, size := 1, mark := none },
         { side := "buy", price := 100, size := 1, mark := some 50 }]).map
      PnlRow.mark_price) = [100, 50] ∧ (50 : ℚ) ≠ 100 := by
  have hb : sideIsBuy ("buy") = true := by decide
  constructor
  · norm_num [compute_pnl_from_trades, pnlRun, pnlStep, closeThenOpen, mkPnlRow, hb]
  · norm_num

lemma pnlRun_length (m : Option ℚ) :
    ∀ (rows : List TradeRow) (acc : PnlAcc),
      (pnlRun m acc rows).length = rows.length := by
  intro rows
  induction rows with
  | nil => intro acc; rfl
  | cons r rs ih =>
    intro acc
    simp only [pnlRun, List.length_cons, ih]

/-- Claim C8 amended: a fill whose position delta is entirely absorbed by
the inventory-cap clipping still emits exactly one output row, reporting
size 0, the unchanged position and average entry price, and the standard
mark resolution — the parsed mark column when configured, present and
parseable, else the fill's own price (NOT unconditionally the fill's own
price); and the reconstructor emits exactly one row per (parseable) input
fill. -/
theorem claim_C8_clipped_fill_row (max_inventory : Option ℚ) :
    (∀ rows : List TradeRow,
      (compute_pnl_from_trades max_inventory rows).length = rows.length) ∧
    (∀ (acc : PnlAcc) (r : TradeRow),
      ((pnlStep max_inventory acc r).2).size = 0 →
      (pnlStep max_inventory acc r).1 = acc ∧
      ((pnlStep max_inventory acc r).2).position = acc.q ∧
      ((pnlStep max_inventory acc r).2).avg_entry_price = acc.ac ∧
      ((pnlStep max_inventory acc r).2).mark_price = r.mark.getD r.price) := by
  constructor
  · intro rows; exact pnlRun_length max_inventory rows _
  · intro acc r
    simp only [pnlStep, mkPnlRow]
    split_ifs with hside hd hd <;> dsimp only <;> intro hsz
    · exact ⟨rfl, rfl, rfl, rfl⟩
    · exact absurd (lt_of_le_of_lt hsz.le (by norm_num)) hd
    · exact ⟨rfl, rfl, rfl, rfl⟩
    · exact absurd (lt_of_le_of_lt hsz.le (by norm_num)) hd

/-- Witness for the amended claim C8: the clipped second buy of the
counterexample run, evaluated through `pnlStep` from the state after the
first fill. -/
theorem claim_C8_witness :
    (compute_pnl_from_trades (some 1)
        [{ side := "buy", price := 100, size := 1, mark := none },
         { side := "buy", price := 100, size := 1, mark := some 50 }]).length = 2 ∧
    ((pnlStep (some 1) { q := 1, ac := 100, cash := -100, realized := 0 }
        { side := "buy", price := 100, size := 1, mark := some 50 }).1 =
      { q := 1, ac := 100, cash := -100, realized := 0 } ∧
     ((pnlStep (some 1) { q := 1, ac := 100, cash := -100, realized := 0 }
        { side := "buy", price := 100, size := 1, mark := some 50 }).2).position = 1 ∧
     ((pnlStep (some 1) { q := 1, ac := 100, cash := -100, realized := 0 }
        { side := "buy", price := 100, size := 1, mark := some 50 }).2).avg_entry_price =
       100 ∧
     ((pnlStep (some 1) { q := 1, ac := 100, cash := -100, realized := 0 }
        { side := "buy", price := 100, size := 1, mark := some 50 }).2).mark_price =
       (some (50 : ℚ)).getD 100) := by
  have hb : sideIsBuy ("buy") = true := by decide
  have hsz : ((pnlStep (some 1) { q := 1, ac := 100, cash := -100, realized := 0 }
      { side := "buy", price := 100, size := 1, mark := some 50 }).2).size = 0 := by
    norm_num [pnlStep, mkPnlRow, hb]
  have hmain := (claim_C8_clipped_fill_row (some 1)).2
    { q := 1, ac := 100, cash := -100, realized := 0 }
    { side := "buy", price := 100, size := 1, mark := some 50 } hsz
  exact ⟨(claim_C8_clipped_fill_row (some 1)).1
      [{ side := "buy", price := 100, size := 1, mark := none },
       { side := "buy", price := 100, size := 1, mark := some 50 }],
    hmain.1, hmain.2.1, hmain.2.2.1, hmain.2.2.2⟩
